import Mathlib

/-!
Verification of the reactive update runtime specified for the
Learning_React_2026 lessons, together with the two pure handler
functions that appear directly in the lesson source
(`addTask` in TodoList.js and `toggleTheme` in App.js).

The runtime itself (state store, dependency comparator, effect
scheduler, context propagator, list reconciler) is exercised by the
lesson components but its code is the external framework, not part of
the repository sources; those parts are modelled from the spec, as
marked on each definition.
-/

namespace LearningReact

/-! ## JavaScript values for dependency tuples

Modelled from the spec: dependency-tuple elements are compared
"pairwise by value identity for primitives and reference identity for
composite values (no deep equality)".  A composite value is therefore
represented only by its reference identity (a numeric object id); its
contents never participate in comparison. -/

/-- Modelled from the spec: a dependency-tuple element — a primitive
value, or a composite value known only by its reference identity. -/
inductive JSValue where
  | num (n : Int)
  | str (s : String)
  | boolean (b : Bool)
  | nullV
  | undefinedV
  | ref (objectId : Nat)
deriving DecidableEq, Repr

/-- Modelled from the spec: the pairwise comparison used by the
dependency comparator — value identity for primitives, reference
identity for composites. -/
def jsIs (a b : JSValue) : Bool := decide (a = b)

/-- Modelled from the spec: true iff some positional element of the two
tuples differs under `jsIs`; tuples of unequal length (a usage error in
the spec) are treated as differing. -/
def depsDiffer : List JSValue → List JSValue → Bool
  | [], [] => false
  | a :: p, b :: n => !(jsIs a b) || depsDiffer p n
  | _, _ => true

/-- Modelled from the spec (§4.2 Dependency Comparator): `none` encodes
an omitted dependency tuple (always re-run); with both tuples present,
re-run iff some positional element differs. -/
def shouldRerun : Option (List JSValue) → Option (List JSValue) → Bool
  | none, _ => true
  | _, none => true
  | some p, some n => depsDiffer p n

/-! ## State store (§4.1)

Modelled from the spec: a state cell holds a current value and an
optional pending value; a setter enqueues a pending value, and when
given a function the function receives the latest pending-or-current
value. -/

/-- Modelled from the spec: the argument of a setter call — a plain new
value or a function of the latest pending-or-current value. -/
inductive Update where
  | val (v : Int)
  | fn (f : Int → Int)

def applyUpdate (cur : Int) : Update → Int
  | .val v => v
  | .fn f => f cur

/-- Modelled from the spec: a StateCell holds the current value and the
pending value, if an update was requested. -/
structure StateCell where
  current : Int
  pending : Option Int
deriving DecidableEq, Repr

/-- Modelled from the spec: the latest pending-or-current value seen by
a functional update. -/
def pendingOrCurrent (c : StateCell) : Int := c.pending.getD c.current

/-- Modelled from the spec: `setter(newValueOrFn)` enqueues a pending
value computed from the latest pending-or-current value. -/
def setCell (c : StateCell) (u : Update) : StateCell :=
  { c with pending := some (applyUpdate (pendingOrCurrent c) u) }

/-- Modelled from the spec: a render pass observes only the current
value of the cell, never the pending one. -/
def readCell (c : StateCell) : Int := c.current

/-- Modelled from the spec: at commit the pending value (if any)
becomes the current value for the next render pass. -/
def commitCell (c : StateCell) : StateCell :=
  { current := pendingOrCurrent c, pending := none }

/-- Modelled from the spec (§5): a state setter invoked from an
external event does not render synchronously; all setter calls of one
scheduling tick are coalesced and serviced by a single render pass.
The returned list holds the output (the committed value) of each render
pass performed while servicing the tick. -/
def serviceTick (c : StateCell) (us : List Update) : StateCell × List Int :=
  let c2 := us.foldl setCell c
  match c2.pending with
  | some _ => ((commitCell c2), [readCell (commitCell c2)])
  | none => (c2, [])

/-! ## Effect scheduler (§4.3)

Modelled from the spec: one EffectRecord carries whether its body has
run, the dependency tuple of its last run, and whether that run
returned a cleanup callback.  We additionally count body runs and
cleanup invocations to state the lifetime claims. -/

/-- Modelled from the spec: the lifecycle state of one EffectRecord,
extended with run and cleanup counters for the lifetime claims. -/
structure EffState where
  ranOnce : Bool
  lastDeps : Option (List JSValue)
  hasCleanup : Bool
  runs : Nat
  cleanups : Nat
deriving DecidableEq, Repr

/-- Modelled from the spec: an EffectRecord before its first run. -/
def initEff : EffState :=
  { ranOnce := false, lastDeps := none, hasCleanup := false, runs := 0, cleanups := 0 }

/-- Modelled from the spec: after each commit the scheduler compares
the declared tuple against the last-run tuple; on a re-run the pending
cleanup (if any) is invoked first, then the body runs and its returned
cleanup (if any) is stored. -/
def effectPass (declared : Option (List JSValue)) (returnsCleanup : Bool)
    (st : EffState) : EffState :=
  if !st.ranOnce || shouldRerun st.lastDeps declared then
    { ranOnce := true, lastDeps := declared, hasCleanup := returnsCleanup,
      runs := st.runs + 1,
      cleanups := st.cleanups + (if st.hasCleanup then 1 else 0) }
  else st

/-- Modelled from the spec: at instance disposal the pending cleanup
callback, if any, is invoked. -/
def disposeEffect (st : EffState) : EffState :=
  if st.hasCleanup then
    { st with cleanups := st.cleanups + 1, hasCleanup := false }
  else st

/-- Modelled from the spec: the whole lifetime of one effect position of
a component instance — one `effectPass` per render pass of the
instance, then disposal. -/
def effectLifetime (passes : List (Option (List JSValue)))
    (returnsCleanup : Bool) : EffState :=
  disposeEffect (passes.foldl (fun st d => effectPass d returnsCleanup st) initEff)

/-- Modelled from the spec: the effect state before disposal, after the
given sequence of render passes. -/
def effectAfterPasses (passes : List (Option (List JSValue)))
    (returnsCleanup : Bool) : EffState :=
  passes.foldl (fun st d => effectPass d returnsCleanup st) initEff

/-! ## Context propagator (§4.4)

Modelled from the spec: resolution walks the ancestor chain from the
reading instance to the root.  The chain records, nearest binding
first, every Provider binding on that path; ancestor components that
provide nothing (and in particular ones that never read the context)
contribute no entry. -/

/-- Modelled from the spec: `read(contextId)` resolves to the value of
the nearest enclosing binding for that context identity, or to the
declared default of the context when no binding exists. -/
def readContext {α : Type} (defaults : Nat → α)
    (chain : List (Nat × α)) (cid : Nat) : α :=
  match chain with
  | [] => defaults cid
  | (c, v) :: rest => if c = cid then v else readContext defaults rest cid

/-! ## List reconciler (§4.5)

Modelled from the spec: child descriptors are matched to the instances of
the previous render by key equality; unmatched previous instances are
disposed, unmatched new descriptors get freshly created instances.
`Instance.id` stands for the object identity of a ComponentInstance,
`state` for its per-item state and `cleanups` for the number of pending
effect-cleanup callbacks it owns. -/

/-- Modelled from the spec: a ComponentInstance as the reconciler sees
it — its object identity, its per-item state, and the number of pending
effect-cleanup callbacks it owns. -/
structure Instance where
  id : Nat
  state : Int
  cleanups : Nat
deriving DecidableEq, Repr

/-- Modelled from the spec: a ChildSlot binding a key to the instance
occupying it. -/
structure Slot where
  key : String
  inst : Instance
deriving DecidableEq, Repr

/-- Modelled from the spec: keyed matching.  Returns the new slot list
(each new key bound to the matching previous instance, or to a fresh
one) and the list of previous instances left unmatched, which are
disposed. -/
def reconcile (prev : List Slot) (keys : List String)
    (fresh : String → Instance) : List Slot × List Instance :=
  (keys.map fun k =>
      match prev.find? (fun s => s.key == k) with
      | some s => { key := k, inst := s.inst }
      | none => { key := k, inst := fresh k },
   (prev.filter (fun s => !(keys.contains s.key))).map (fun s => s.inst))

/-- Modelled from the spec: disposing an instance invokes each of its
pending cleanup callbacks; the result records, per disposed instance,
its identity and how many cleanups ran. -/
def runDisposal (insts : List Instance) : List (Nat × Nat) :=
  insts.map fun i => (i.id, i.cleanups)

/-- Modelled from the spec: when no explicit key is given the runtime
falls back to the positional index as the key (the lesson source writes
this fallback explicitly as key equal to index). -/
def fallbackKeys (explicitKeys : List (Option String)) : List String :=
  explicitKeys.enum.map fun p => p.2.getD (toString p.1)

/-! ## Error handling (§7)

Modelled from the spec: declaring a different number of state cells
than on the previous render is the fatal `InconsistentStateShapeError`
and halts the whole runtime; an exception inside an effect body or
cleanup is reported to the external error boundary and sibling
instances still process. -/

/-- Modelled from the spec: the fatal structural usage error of §4.1. -/
inductive FatalError where
  | inconsistentStateShape
deriving DecidableEq, Repr

/-- Modelled from the spec: what one render-and-flush of an instance
exposes to error handling — the previous and new state-cell counts and,
per declared effect, whether its body or cleanup raises. -/
structure InstRender where
  prevCells : Nat
  newCells : Nat
  effectRaises : List Bool
deriving DecidableEq, Repr

/-- Modelled from the spec: rendering and flushing one instance.  A
state-shape mismatch is fatal; otherwise every raising effect is
reported to the boundary and the count of reports is returned. -/
def flushInstance (i : InstRender) : Except FatalError Nat :=
  if i.newCells = i.prevCells then
    Except.ok (i.effectRaises.countP (fun b => b))
  else
    Except.error FatalError.inconsistentStateShape

/-- Modelled from the spec: processing a sequence of sibling instances
in order.  A fatal error halts the whole runtime at once; contained
effect errors accumulate as boundary reports while every later sibling
still processes. -/
def processSiblings : List InstRender → Except FatalError Nat
  | [] => Except.ok 0
  | i :: rest =>
    match flushInstance i with
    | Except.error e => Except.error e
    | Except.ok n =>
      match processSiblings rest with
      | Except.error e => Except.error e
      | Except.ok m => Except.ok (n + m)

/-! ## Handlers embedded directly from the repository source -/

/-- State of the `TodoList` component in
my-react-events-lists-and-conditional-rendering-app/src/TodoList.js:
two state cells, `tasks` and `newTask`. -/
structure TodoState where
  tasks : List String
  newTask : String
deriving DecidableEq, Repr

/-- Embedding of the JavaScript `String.prototype.trim` used by the
guard in `addTask`: drop whitespace characters from both ends. -/
def jsTrim (s : String) : String :=
  String.mk (((s.data.dropWhile Char.isWhitespace).reverse.dropWhile
    Char.isWhitespace).reverse)

/-- Embedded from TodoList.js lines 7-11: `addTask` returns early when
the trimmed input is empty; otherwise it appends the input to the task
list and clears the input. -/
def addTask (s : TodoState) : TodoState :=
  if jsTrim s.newTask = "" then s
  else { tasks := s.tasks ++ [s.newTask], newTask := "" }

/-- Embedded from TodoList.js lines 13-15: `removeTask(index)` keeps
every task whose position differs from `index`. -/
def removeTask (s : TodoState) (index : Nat) : TodoState :=
  { s with tasks := (s.tasks.enum.filter (fun p => p.1 != index)).map (fun p => p.2) }

/-- Embedded from my-react-hooks-and-useeffect-app/src/App.js lines
33-35: the value passed to `setTheme` by `toggleTheme`. -/
def toggleTheme (theme : String) : String :=
  if theme = "light" then "dark" else "light"

/-! ## Helper lemmas -/

theorem foldl_setCell_pending_isSome (us : List Update) :
    ∀ c : StateCell, us ≠ [] → ((us.foldl setCell c).pending).isSome := by
  induction us with
  | nil => intro c h; exact absurd rfl h
  | cons u rest ih =>
    intro c _
    cases rest with
    | nil => simp [setCell]
    | cons v vs =>
      exact ih (setCell c u) (by simp)

theorem depsDiffer_iff (p : List JSValue) :
    ∀ n : List JSValue, p.length = n.length →
      (depsDiffer p n = true ↔ ∃ i : Nat, p[i]? ≠ n[i]?) := by
  induction p with
  | nil =>
    intro n hlen
    cases n with
    | nil => simp [depsDiffer]
    | cons b n2 => simp at hlen
  | cons a p2 ih =>
    intro n hlen
    cases n with
    | nil => simp at hlen
    | cons b n2 =>
      have hlen2 : p2.length = n2.length := by simpa using hlen
      constructor
      · intro hd
        simp only [depsDiffer, jsIs, Bool.or_eq_true, Bool.not_eq_true',
          decide_eq_false_iff_not] at hd
        rcases hd with hab | hrec
        · exact ⟨0, by simpa using hab⟩
        · obtain ⟨i, hi⟩ := (ih n2 hlen2).mp hrec
          exact ⟨i + 1, by simpa using hi⟩
      · rintro ⟨i, hi⟩
        cases i with
        | zero =>
          have hab : a ≠ b := by simpa using hi
          simp [depsDiffer, jsIs, hab]
        | succ j =>
          have hj : p2[j]? ≠ n2[j]? := by simpa using hi
          have hrec := (ih n2 hlen2).mpr ⟨j, hj⟩
          simp [depsDiffer, hrec]

theorem effectPass_stable (rc : Bool) (st : EffState)
    (h1 : st.ranOnce = true) (h2 : st.lastDeps = some []) :
    effectPass (some []) rc st = st := by
  simp [effectPass, h1, h2, shouldRerun, depsDiffer]

theorem foldl_effectPass_stable (rc : Bool) (n : Nat) (st : EffState)
    (h1 : st.ranOnce = true) (h2 : st.lastDeps = some []) :
    (List.replicate n (some ([] : List JSValue))).foldl
        (fun s d => effectPass d rc s) st = st := by
  induction n with
  | zero => rfl
  | succ m ih =>
    rw [List.replicate_succ, List.foldl_cons, effectPass_stable rc st h1 h2]
    exact ih

theorem processSiblings_all_ok (insts : List InstRender)
    (h : ∀ i ∈ insts, i.newCells = i.prevCells) :
    processSiblings insts =
      Except.ok ((insts.map (fun i => i.effectRaises.countP (fun b => b))).sum) := by
  induction insts with
  | nil => rfl
  | cons i rest ih =>
    have hi : i.newCells = i.prevCells := h i (by simp)
    have hflush : flushInstance i = Except.ok (i.effectRaises.countP (fun b => b)) := by
      simp [flushInstance, hi]
    have hrest := ih (fun x hx => h x (by simp [hx]))
    simp [processSiblings, hflush, hrest]

theorem processSiblings_fatal (pre : List InstRender) :
    ∀ (bad : InstRender) (post : List InstRender),
      bad.newCells ≠ bad.prevCells →
      (∀ i ∈ pre, i.newCells = i.prevCells) →
      processSiblings (pre ++ bad :: post)
        = Except.error FatalError.inconsistentStateShape := by
  induction pre with
  | nil =>
    intro bad post hbad _
    have hflush : flushInstance bad = Except.error FatalError.inconsistentStateShape := by
      simp [flushInstance, hbad]
    simp [processSiblings, hflush]
  | cons i pre2 ih =>
    intro bad post hbad h
    have hi : i.newCells = i.prevCells := h i (by simp)
    have hflush : flushInstance i = Except.ok (i.effectRaises.countP (fun b => b)) := by
      simp [flushInstance, hi]
    have hrest := ih bad post hbad (fun x hx => h x (by simp [hx]))
    simp [processSiblings, hflush, hrest]

/-! ## Claim theorems -/

/-- C8: a setter call never changes the value the current render pass
observes; the enqueued value becomes observable exactly at the next
render pass, as the application of the update to the latest
pending-or-current value. -/
theorem setter_atomic_wrt_render (c : StateCell) (u : Update) :
    readCell (setCell c u) = readCell c ∧
    readCell (commitCell (setCell c u)) = applyUpdate (pendingOrCurrent c) u := by
  exact ⟨rfl, rfl⟩

/-- C1: every nonempty sequence of setter calls serviced within one
scheduling tick produces exactly one render pass, and the concrete
counter scenario — state cell starting at 0, three functional increment
setter calls in one external event — yields a single render whose
output is 3. -/
theorem coalesced_single_render (c : StateCell) (us : List Update) (h : us ≠ []) :
    (serviceTick c us).2.length = 1 ∧
    serviceTick { current := 0, pending := none }
        [Update.fn (fun n => n + 1), Update.fn (fun n => n + 1),
         Update.fn (fun n => n + 1)]
      = ({ current := 3, pending := none }, [3]) := by
  refine ⟨?_, rfl⟩
  have hs := foldl_setCell_pending_isSome us c h
  simp only [serviceTick]
  cases hp : (us.foldl setCell c).pending with
  | none => rw [hp] at hs; simp at hs
  | some v => simp

/-- C1 witness: one concrete setter call in a tick yields exactly one
render pass. -/
theorem coalesced_single_render_witness :
    (serviceTick { current := 5, pending := none } [Update.val 9]).2.length = 1 :=
  (coalesced_single_render { current := 5, pending := none } [Update.val 9]
    (List.cons_ne_nil _ _)).1

/-- C9: when the pending input consists only of whitespace characters
(in particular when it is empty), `addTask` changes neither state cell:
no task is appended and the input is not cleared. -/
theorem addTask_blank_input_noop (s : TodoState)
    (h : ∀ ch ∈ s.newTask.data, ch.isWhitespace) : addTask s = s := by
  have htrim : jsTrim s.newTask = "" := by
    have h1 : s.newTask.data.dropWhile Char.isWhitespace = [] :=
      List.dropWhile_eq_nil_iff.mpr h
    simp [jsTrim, h1]
  simp [addTask, htrim]

/-- C9 witness: with a whitespace-only input and one existing task,
`addTask` leaves the state unchanged. -/
theorem addTask_blank_input_noop_witness :
    addTask { tasks := ["buy milk"], newTask := "  " }
      = { tasks := ["buy milk"], newTask := "  " } :=
  addTask_blank_input_noop { tasks := ["buy milk"], newTask := "  " } (by decide)

/-- C5: removing the item keyed b from the keyed sequence a, b, c keeps
the very instances previously bound to a and c in the new slots, and
the instance bound to b is the one disposed, with each of its pending
effect cleanups invoked at disposal. -/
theorem keyed_removal_preserves_instances (ia ib ic : Instance)
    (fresh : String → Instance) :
    (reconcile [{ key := "a", inst := ia }, { key := "b", inst := ib },
        { key := "c", inst := ic }] ["a", "c"] fresh).1
      = [{ key := "a", inst := ia }, { key := "c", inst := ic }] ∧
    (reconcile [{ key := "a", inst := ia }, { key := "b", inst := ib },
        { key := "c", inst := ic }] ["a", "c"] fresh).2 = [ib] ∧
    runDisposal (reconcile [{ key := "a", inst := ia }, { key := "b", inst := ib },
        { key := "c", inst := ic }] ["a", "c"] fresh).2
      = [(ib.id, ib.cleanups)] := by
  exact ⟨rfl, rfl, rfl⟩

/-- C6: under positional fallback keys, removing the middle item of a
three-item sequence leaves the second position — now rendering the data
originally at index 2 — holding the instance previously bound to index
1, disposes the instance previously at index 2, and the reconciler
behaves identically to a caller passing those index strings as real
keys. -/
theorem positional_removal_misattribution (ia ib ic : Instance)
    (fresh : String → Instance) :
    fallbackKeys [none, none] = ["0", "1"] ∧
    (reconcile [{ key := "0", inst := ia }, { key := "1", inst := ib },
        { key := "2", inst := ic }] (fallbackKeys [none, none]) fresh).1
      = [{ key := "0", inst := ia }, { key := "1", inst := ib }] ∧
    (reconcile [{ key := "0", inst := ia }, { key := "1", inst := ib },
        { key := "2", inst := ic }] (fallbackKeys [none, none]) fresh).2 = [ic] ∧
    reconcile [{ key := "0", inst := ia }, { key := "1", inst := ib },
        { key := "2", inst := ic }] (fallbackKeys [none, none]) fresh
      = reconcile [{ key := "0", inst := ia }, { key := "1", inst := ib },
        { key := "2", inst := ic }] ["0", "1"] fresh := by
  exact ⟨rfl, rfl, rfl, rfl⟩

/-- C7: a state-shape mismatch at any instance halts the whole run with
InconsistentStateShapeError, while raising effects are merely reported:
a run whose instances are all well shaped succeeds and counts every
raising effect of every sibling. -/
theorem shape_fatal_effect_contained :
    (∀ (pre : List InstRender) (bad : InstRender) (post : List InstRender),
        bad.newCells ≠ bad.prevCells →
        (∀ i ∈ pre, i.newCells = i.prevCells) →
        processSiblings (pre ++ bad :: post)
          = Except.error FatalError.inconsistentStateShape) ∧
    (∀ insts : List InstRender, (∀ i ∈ insts, i.newCells = i.prevCells) →
        processSiblings insts =
          Except.ok ((insts.map (fun i => i.effectRaises.countP (fun b => b))).sum)) :=
  ⟨fun pre bad post hbad h => processSiblings_fatal pre bad post hbad h,
   fun insts h => processSiblings_all_ok insts h⟩

/-- C7 witness: a mismatched second instance halts the run even behind
a raising first effect, while two well-shaped instances with three
effects, two of them raising, yield two boundary reports. -/
theorem shape_fatal_effect_contained_witness :
    processSiblings
        [{ prevCells := 1, newCells := 1, effectRaises := [true] },
         { prevCells := 2, newCells := 1, effectRaises := [] }]
      = Except.error FatalError.inconsistentStateShape ∧
    processSiblings
        [{ prevCells := 1, newCells := 1, effectRaises := [true, false] },
         { prevCells := 0, newCells := 0, effectRaises := [true] }]
      = Except.ok 2 := by
  constructor
  · exact shape_fatal_effect_contained.1
      [{ prevCells := 1, newCells := 1, effectRaises := [true] }]
      { prevCells := 2, newCells := 1, effectRaises := [] } [] (by decide) (by decide)
  · exact Eq.trans (shape_fatal_effect_contained.2
      [{ prevCells := 1, newCells := 1, effectRaises := [true, false] },
       { prevCells := 0, newCells := 0, effectRaises := [true] }] (by decide)) rfl

/-- C10: on the set of theme values light and dark, `toggleTheme` maps
each element to the other one (so it never leaves the set) and is an
involution. -/
theorem toggleTheme_involution (t : String) (h : t = "light" ∨ t = "dark") :
    toggleTheme t ≠ t ∧
    (toggleTheme t = "light" ∨ toggleTheme t = "dark") ∧
    toggleTheme (toggleTheme t) = t := by
  rcases h with h | h <;> subst h <;>
    exact ⟨by decide, by decide, by decide⟩

/-- C2: the dependency comparator returns true whenever the tuple is
omitted; for tuples of equal length it returns true iff some positional
element differs (under identity comparison encoded in `JSValue`); and
after the first run an empty tuple always compares equal to itself, so
it returns false. -/
theorem shouldRerun_contract :
    (∀ nxt : Option (List JSValue), shouldRerun none nxt = true) ∧
    (∀ p n : List JSValue, p.length = n.length →
      (shouldRerun (some p) (some n) = true ↔ ∃ i : Nat, p[i]? ≠ n[i]?)) ∧
    shouldRerun (some []) (some []) = false := by
  refine ⟨fun nxt => by cases nxt <;> rfl, fun p n h => ?_, rfl⟩
  simpa [shouldRerun] using depsDiffer_iff p n h

/-- C2 witness: two tuples that differ only in the reference identity
of their second (composite) element force a re-run. -/
theorem shouldRerun_contract_witness :
    shouldRerun (some [JSValue.num 1, JSValue.ref 7])
      (some [JSValue.num 1, JSValue.ref 8]) = true :=
  (shouldRerun_contract.2.1 [JSValue.num 1, JSValue.ref 7]
    [JSValue.num 1, JSValue.ref 8] rfl).mpr ⟨1, by decide⟩

/-- C3: for an effect declared with the empty dependency tuple and a
cleanup-returning body, over any instance lifetime of at least one
render pass the body runs exactly once, no cleanup runs while the
instance is alive, and disposal runs the cleanup exactly once. -/
theorem empty_deps_runs_once (n : Nat) :
    (effectAfterPasses (List.replicate (n + 1) (some [])) true).runs = 1 ∧
    (effectAfterPasses (List.replicate (n + 1) (some [])) true).cleanups = 0 ∧
    (effectLifetime (List.replicate (n + 1) (some [])) true).runs = 1 ∧
    (effectLifetime (List.replicate (n + 1) (some [])) true).cleanups = 1 := by
  have hfirst : effectPass (some []) true initEff =
      { ranOnce := true, lastDeps := some [], hasCleanup := true,
        runs := 1, cleanups := 0 } := by
    simp [effectPass, initEff]
  have hafter : effectAfterPasses (List.replicate (n + 1) (some [])) true =
      { ranOnce := true, lastDeps := some [], hasCleanup := true,
        runs := 1, cleanups := 0 } := by
    rw [effectAfterPasses, List.replicate_succ, List.foldl_cons, hfirst]
    exact foldl_effectPass_stable true n _ rfl rfl
  have hl : effectLifetime (List.replicate (n + 1) (some [])) true
      = disposeEffect (effectAfterPasses (List.replicate (n + 1) (some [])) true) := rfl
  refine ⟨by rw [hafter], by rw [hafter], ?_, ?_⟩ <;> rw [hl, hafter] <;> rfl

/-- C4: context resolution returns the value of the nearest enclosing
Provider binding for the context identity on the ancestor chain, the
declared default when no binding for it exists, and is unaffected by
bindings of any other context identity. -/
theorem context_nearest_provider {α : Type} (defaults : Nat → α) (cid : Nat) :
    (∀ (pre : List (Nat × α)) (v : α) (rest : List (Nat × α)),
        (∀ b ∈ pre, b.1 ≠ cid) →
        readContext defaults (pre ++ (cid, v) :: rest) cid = v) ∧
    (∀ chain : List (Nat × α), (∀ b ∈ chain, b.1 ≠ cid) →
        readContext defaults chain cid = defaults cid) ∧
    (∀ chain : List (Nat × α),
        readContext defaults chain cid =
          readContext defaults (chain.filter (fun b => b.1 == cid)) cid) := by
  refine ⟨?_, ?_, ?_⟩
  · intro pre
    induction pre with
    | nil => intro v rest _; simp [readContext]
    | cons b pre2 ih =>
      intro v rest h
      obtain ⟨c, w⟩ := b
      have hc : c ≠ cid := h (c, w) (by simp)
      simp only [List.cons_append, readContext]
      rw [if_neg hc]
      exact ih v rest (fun x hx => h x (by simp [hx]))
  · intro chain
    induction chain with
    | nil => intro _; simp [readContext]
    | cons b rest ih =>
      intro h
      obtain ⟨c, w⟩ := b
      have hc : c ≠ cid := h (c, w) (by simp)
      simp only [readContext]
      rw [if_neg hc]
      exact ih (fun x hx => h x (by simp [hx]))
  · intro chain
    induction chain with
    | nil => rfl
    | cons b rest ih =>
      obtain ⟨c, w⟩ := b
      by_cases hc : c = cid
      · subst hc
        simp [readContext, List.filter_cons, ih]
      · simp only [readContext, List.filter_cons]
        rw [if_neg hc]
        have hbeq : (c == cid) = false := by simpa using hc
        rw [hbeq]
        simpa using ih

/-- C4 witness: with a binding for context 2 nearer than the binding
for context 1, a reader of context 1 still obtains 9. -/
theorem context_nearest_provider_witness :
    readContext (fun _ => (0 : Int)) [(2, 5), (1, 9)] 1 = 9 :=
  (context_nearest_provider (fun _ => (0 : Int)) 1).1 [(2, 5)] 9 [] (by decide)

/-- C10 witness: starting from light, one toggle gives dark and two
toggles give light again. -/
theorem toggleTheme_involution_witness :
    toggleTheme "light" ≠ "light" ∧
    (toggleTheme "light" = "light" ∨ toggleTheme "light" = "dark") ∧
    toggleTheme (toggleTheme "light") = "light" :=
  toggleTheme_involution "light" (Or.inl rfl)

end LearningReact
